import Mathlib

/-!
Verification of the content-based recommendation core of the repository
(content_based.py and data_loader.py).

Modelling conventions (shallow embedding):

* Machine floats are idealised as exact rationals (ℚ).  A vector (numpy 1-D
  array) is a List ℚ; the embeddings matrix is a List of row vectors.
* A Python dict is modelled by the list of assignments made to it, in program
  order; lookup returns the value of the LAST assignment to the key
  (lookupLast below).  Membership (`k in d`) is (lookupLast d k).isSome.
* Python's `list.sort(key=..., reverse=True)` is a stable descending sort by
  key.  A stable sort is uniquely determined by the ordering and the input,
  so it is modelled by the stable insertion sort sortDesc below.
* Python's slice `xs[:n]` keeps the first n elements for n ≥ 0 and drops the
  last |n| elements for n < 0 (pySlice below).
* Cosine similarity dot(u,v)/(‖u‖·‖v‖) involves a square root, which is not
  rational; the exact similarity value is abstracted as a parameter
  `score : Vec → Vec → ℚ` supplied to both scoring modes.  Both
  sklearn.metrics.pairwise.cosine_similarity (used by recommend) and the
  manual dot/(norm·norm) computation (used by recommend_low_memory) compute
  this same mathematical quantity, so one shared parameter is faithful.
  The one place where the two computations genuinely differ is the zero-norm
  case: sklearn's normalize replaces a zero row norm by 1, so
  cosine_similarity yields 0 whenever either vector is zero
  (sklearn_cosine below), while recommend_low_memory tests
  `norm_user > 0 and norm_article > 0` before scoring.  A norm is zero
  exactly when the sum of squares normSq is zero, which is exact over ℚ.
* pandas Series.quantile uses linear interpolation on the sorted values at
  position q·(n-1) (quantile below); np.log1p is a transcendental function
  and is abstracted as a parameter `log1p : ℚ → ℚ`.
-/

/-- A numpy 1-D array of floats, idealised over ℚ. -/
abbrev Vec := List ℚ

/-- Dot product of two vectors (np.dot); zipWith truncates to the shorter
length, which is never hit on uniform-dimension data. -/
def dot (u v : Vec) : ℚ := (List.zipWith (· * ·) u v).sum

/-- Sum of squares of a vector.  np.linalg.norm(v) is its square root, so
norm(v) > 0 iff normSq v > 0 and norm(v) = 0 iff normSq v = 0; all norm
tests in the source are modelled through normSq. -/
def normSq (v : Vec) : ℚ := dot v v

/-- Pointwise vector addition (numpy +). -/
def vecAdd (u v : Vec) : Vec := List.zipWith (· + ·) u v

/-- Scalar multiplication of a vector (numpy scalar *). -/
def smul (c : ℚ) (v : Vec) : Vec := v.map (fun x => c * x)

/-- np.zeros d. -/
def zeros (d : ℕ) : Vec := List.replicate d 0

/-- Lookup in a Python dict modelled as its assignment list: the value of the
last assignment to the key wins. -/
def lookupLast {α β : Type} [DecidableEq α] : List (α × β) → α → Option β
  | [], _ => none
  | (a, b) :: t, k =>
    match lookupLast t k with
    | some v => some v
    | none => if a = k then some b else none

/-- Python slice xs[:n]: first n elements when n ≥ 0, all but the last |n|
elements when n < 0. -/
def pySlice {α : Type} (n : ℤ) (xs : List α) : List α :=
  if 0 ≤ n then xs.take n.toNat else xs.take (xs.length - (-n).toNat)

/-- Stable descending insertion by score: p is placed before the first
element whose score is ≤ p's score. -/
def insertDesc (p : ℤ × ℚ) : List (ℤ × ℚ) → List (ℤ × ℚ)
  | [] => [p]
  | q :: t => if q.2 ≤ p.2 then p :: q :: t else q :: insertDesc p t

/-- Stable descending sort by score: the model of Python's
scores.sort(key=lambda x: x[1], reverse=True). -/
def sortDesc : List (ℤ × ℚ) → List (ℤ × ℚ)
  | [] => []
  | p :: t => insertDesc p (sortDesc t)

/-- Stable ascending insertion for a linear order. -/
def insertAsc {α : Type} [LinearOrder α] (x : α) : List α → List α
  | [] => [x]
  | y :: t => if x ≤ y then x :: y :: t else y :: insertAsc x t

/-- Stable ascending sort for a linear order (used for pandas sorted group
keys and for quantile's value sort). -/
def sortAsc {α : Type} [LinearOrder α] : List α → List α
  | [] => []
  | x :: t => insertAsc x (sortAsc t)

/-- Python's enumerate paired as (value, position), starting at m. -/
def enumIdxFrom (m : ℕ) : List ℤ → List (ℤ × ℕ)
  | [] => []
  | a :: t => (a, m) :: enumIdxFrom (m + 1) t

/-- The dict comprehension \x7baid: i for i, aid in enumerate(article_ids)\x7d,
as its assignment list (lookupLast gives Python's last-wins semantics). -/
def enumIdx (ids : List ℤ) : List (ℤ × ℕ) := enumIdxFrom 0 ids

/-- pandas Series.quantile with the default linear interpolation: on the
ascending sorted values s, the quantile sits at position h = q·(n-1) and is
interpolated between s[⌊h⌋] and s[⌊h⌋+1]. -/
def quantile (xs : List ℚ) (q : ℚ) : ℚ :=
  let s := sortAsc xs
  let h : ℚ := q * ((s.length : ℚ) - 1)
  let i : ℕ := (⌊h⌋).toNat
  let lo := s.getD i 0
  let hi := s.getD (i + 1) lo
  lo + (h - (⌊h⌋ : ℚ)) * (hi - lo)

/-- One row of the ratings DataFrame (columns user_id, article_id, rating). -/
structure RatingRow where
  user_id : ℤ
  article_id : ℤ
  rating : ℚ
deriving DecidableEq

/-- One entry of ContentBasedRecommender.user_profiles: the dict
\x7b'vector': ..., 'article_weights': ...\x7d stored per user. -/
structure Profile where
  vector : Vec
  article_weights : List (ℤ × ℚ)
deriving DecidableEq

/-- The ContentBasedRecommender object state (content_based.py). -/
structure ContentBasedRecommender where
  embeddings : List Vec
  article_indices : List (ℤ × ℕ)
  article_ids : List ℤ
  user_profiles : List (ℤ × Profile)
deriving DecidableEq

namespace ContentBasedRecommender

/-- self.embeddings.shape[1]: the row dimensionality of the matrix. -/
def dim (r : ContentBasedRecommender) : ℕ := (r.embeddings.headD []).length

/-- Row i of the embeddings matrix (self.embeddings[i]). -/
def rowAt (r : ContentBasedRecommender) (i : ℕ) : Vec := r.embeddings.getD i []

/-- The embedding of an article id looked up through article_indices
(self.embeddings[self.article_indices[aid]]). -/
def vecOf (r : ContentBasedRecommender) (aid : ℤ) : Vec :=
  r.rowAt ((lookupLast r.article_indices aid).getD 0)

/-- The rows of ratings_df belonging to one groupby('user_id') group, in
original row order (pandas groupby preserves intra-group order). -/
def userRows (rd : List RatingRow) (u : ℤ) : List RatingRow :=
  rd.filter (fun row => decide (row.user_id = u))

/-- The group keys of ratings_df.groupby('user_id'): distinct user ids in
ascending order (pandas groupby sorts keys). -/
def sortedUsers (rd : List RatingRow) : List ℤ :=
  sortAsc ((rd.map (fun row => row.user_id)).dedup)

/-- One iteration of the inner loop of fit over a user's rows: skip the row
if its article_id is not in article_indices, otherwise add
rating · embedding to the accumulated vector, add rating to the total
weight, and record the article_weights dict assignment. -/
def profileStep (r : ContentBasedRecommender)
    (st : Vec × ℚ × List (ℤ × ℚ)) (row : RatingRow) : Vec × ℚ × List (ℤ × ℚ) :=
  match lookupLast r.article_indices row.article_id with
  | none => st
  | some i =>
      (vecAdd st.1 (smul row.rating (r.rowAt i)),
       st.2.1 + row.rating,
       st.2.2 ++ [(row.article_id, row.rating)])

/-- The body of fit for one user: fold the user's rows from the zero vector,
then divide by the total weight only when it is positive. -/
def buildProfile (r : ContentBasedRecommender) (rows : List RatingRow) : Profile :=
  let st := rows.foldl (profileStep r) (zeros r.dim, 0, [])
  { vector := if 0 < st.2.1 then smul (1 / st.2.1) st.1 else st.1
    article_weights := st.2.2 }

/-- ContentBasedRecommender.fit: for each group key in ascending order,
assign user_profiles[user_id] = profile.  The dict is modelled as its
assignment list, so the new assignments are appended after the existing
ones; fit never clears user_profiles. -/
def fit (r : ContentBasedRecommender) (rd : List RatingRow) : ContentBasedRecommender :=
  { r with
    user_profiles :=
      r.user_profiles ++
        (sortedUsers rd).map (fun u => (u, r.buildProfile (userRows rd u))) }

/-- set(ratings_df[ratings_df['user_id'] == user_id]['article_id'].unique()):
the article ids the user has already interacted with (only membership in
this set is ever used). -/
def userArticles (rd : List RatingRow) (u : ℤ) : List ℤ :=
  ((rd.filter (fun row => decide (row.user_id = u))).map
    (fun row => row.article_id)).dedup

/-- sklearn cosine_similarity of one pair: sklearn's normalize maps a zero
vector to itself (zero norms are replaced by 1), so the similarity is 0
whenever either vector is zero; otherwise it is the exact cosine, supplied
as the abstract parameter score. -/
def sklearn_cosine (score : Vec → Vec → ℚ) (u v : Vec) : ℚ :=
  if normSq u = 0 ∨ normSq v = 0 then 0 else score u v

/-- The batch loop of recommend, with the batch size b as a parameter
(the source hardcodes b = 1000).  Faithful to the source, including its
index bookkeeping: batch_indices collects the embedding-matrix indices of
the NON-excluded ids of the batch, but the similarity of position j is then
attributed to article_ids[i + j], the j-th id of the WHOLE batch. -/
def batchScores (r : ContentBasedRecommender) (score : Vec → Vec → ℚ)
    (u : Vec) (ex : List ℤ) (b : ℕ) : List (ℤ × ℚ) :=
  (List.range ((r.article_ids.length + b - 1) / b)).flatMap (fun k =>
    let i := k * b
    let batch_ids := (r.article_ids.drop i).take b
    let batch_indices :=
      (batch_ids.filter (fun aid => decide (aid ∉ ex))).map
        (fun aid => (lookupLast r.article_indices aid).getD 0)
    (List.range batch_indices.length).filterMap (fun j =>
      let article_id := r.article_ids.getD (i + j) 0
      if article_id ∈ ex then none
      else some (article_id,
        sklearn_cosine score u (r.embeddings.getD (batch_indices.getD j 0) []))))

/-- ContentBasedRecommender.recommend with the batch size as a parameter:
empty result for a user without a profile, otherwise the batched scores
sorted stably by descending score and cut to scores[:n]. -/
def recommend_batched (r : ContentBasedRecommender) (score : Vec → Vec → ℚ)
    (b : ℕ) (user : ℤ) (rd : List RatingRow) (n : ℤ) : List (ℤ × ℚ) :=
  match lookupLast r.user_profiles user with
  | none => []
  | some prof =>
      pySlice n (sortDesc (batchScores r score prof.vector (userArticles rd user) b))

/-- ContentBasedRecommender.recommend: the batched mode with the source's
fixed batch_size = 1000. -/
def recommend (r : ContentBasedRecommender) (score : Vec → Vec → ℚ)
    (user : ℤ) (rd : List RatingRow) (n : ℤ) : List (ℤ × ℚ) :=
  r.recommend_batched score 1000 user rd n

/-- The scores list accumulated by recommend_low_memory: iterate over the
article ids in table order, skip already-seen articles, and score a
candidate only when both the user norm and the article norm are positive. -/
def lowMemScores (r : ContentBasedRecommender) (score : Vec → Vec → ℚ)
    (u : Vec) (ex : List ℤ) : List (ℤ × ℚ) :=
  r.article_ids.filterMap (fun aid =>
    if aid ∈ ex then none
    else
      let v := r.vecOf aid
      if 0 < normSq u ∧ 0 < normSq v then some (aid, score u v) else none)

/-- ContentBasedRecommender.recommend_low_memory: one candidate at a time,
then the same stable descending sort and scores[:n] cut as recommend. -/
def recommend_low_memory (r : ContentBasedRecommender) (score : Vec → Vec → ℚ)
    (user : ℤ) (rd : List RatingRow) (n : ℤ) : List (ℤ × ℚ) :=
  match lookupLast r.user_profiles user with
  | none => []
  | some prof =>
      pySlice n (sortDesc (r.lowMemScores score prof.vector (userArticles rd user)))

/-- The rows of a ratings table whose article_id is present in
article_indices: exactly the rows that contribute to a profile. -/
def indexedRows (r : ContentBasedRecommender) (rows : List RatingRow) : List RatingRow :=
  rows.filter (fun row => (lookupLast r.article_indices row.article_id).isSome)

/-- The total weight Σ rating over a user's indexed rows. -/
def totalWeight (r : ContentBasedRecommender) (rows : List RatingRow) : ℚ :=
  ((r.indexedRows rows).map (fun row => row.rating)).sum

/-- The weighted embedding sum Σ (rating · vector) over a user's indexed
rows. -/
def weightedVecSum (r : ContentBasedRecommender) (rows : List RatingRow) : Vec :=
  ((r.indexedRows rows).map
    (fun row => smul row.rating (r.vecOf row.article_id))).foldr vecAdd (zeros r.dim)

/-- The candidates that survive exclusion and have a defined cosine
similarity: both the user vector and the candidate embedding have positive
norm. -/
def definedCandidates (r : ContentBasedRecommender) (u : Vec) (ex : List ℤ) : List ℤ :=
  r.article_ids.filter (fun aid =>
    decide (aid ∉ ex ∧ 0 < normSq u ∧ 0 < normSq (r.vecOf aid)))

end ContentBasedRecommender

/-- One row of the clicks DataFrame after pd.to_numeric(..., errors="coerce"):
session_size is none when the engagement measure was missing or
non-numeric (NaN). -/
structure Click where
  user_id : ℤ
  article_id : ℤ
  session_size : Option ℚ
deriving DecidableEq

/-- The rows kept by df.dropna(subset=["session_size"]). -/
def keptClicks (clicks : List Click) : List Click :=
  clicks.filter (fun c => c.session_size.isSome)

/-- DataLoader._prepare_ratings: coerce, drop rows with missing measure,
compute the log column, take the global 25th and 75th percentile of that
column, and map it to ratings 1/2/3.  log1p abstracts np.log1p. -/
def prepare_ratings (log1p : ℚ → ℚ) (clicks : List Click) : List RatingRow :=
  let df := clicks.filterMap (fun c =>
    c.session_size.map (fun m => (c.user_id, c.article_id, m)))
  let logs := df.map (fun t => log1p t.2.2)
  let q25 := quantile logs (1 / 4)
  let q75 := quantile logs (3 / 4)
  List.zipWith (fun t lg =>
      RatingRow.mk t.1 t.2.1 (if lg ≤ q25 then 1 else if lg ≤ q75 then 2 else 3))
    df logs

/-- The raw embeddings source of DataLoader._prepare_embeddings: an id-keyed
dict, a row-labelled DataFrame, or a raw positional matrix. -/
inductive RawEmbeddings where
  | dict (entries : List (ℤ × Vec))
  | frame (index : List ℤ) (values : List Vec)
  | raw (matrix : List Vec)

/-- DataLoader._prepare_embeddings: normalize the source into
(article_ids, matrix, indices) where indices is the enumeration dict.
The source performs no validation of any kind. -/
def prepare_embeddings (e : RawEmbeddings) (dfArticleIds : List ℤ) :
    List ℤ × List Vec × List (ℤ × ℕ) :=
  let p : List ℤ × List Vec :=
    match e with
    | .dict entries => (entries.map (fun q => q.1), entries.map (fun q => q.2))
    | .frame index values => (index, values)
    | .raw matrix => (dfArticleIds, matrix)
  (p.1, p.2, enumIdx p.1)

/-- Test table A: articles 10 ↦ [1,0] and 20 ↦ [0,1], index enumerating the
id list, no profiles yet. -/
def tableA : ContentBasedRecommender :=
  ⟨[[1, 0], [0, 1]], [(10, 0), (20, 1)], [10, 20], []⟩

/-- Test ratings A: user 1 rated article 10 with rating 1. -/
def ratingsA : List RatingRow := [⟨1, 10, 1⟩]

/-- Test table B: article 30 ↦ [0,0] (a zero-norm embedding) and
article 10 ↦ [1,0]. -/
def tableB : ContentBasedRecommender :=
  ⟨[[0, 0], [1, 0]], [(30, 0), (10, 1)], [30, 10], []⟩

/-- Test ratings B: user 1 rated article 10 with rating 3. -/
def ratingsB : List RatingRow := [⟨1, 10, 3⟩]

/-- Test table C: articles 10 ↦ [1,0], 20 ↦ [0,1] and 30 ↦ [1,1]. -/
def tableC : ContentBasedRecommender :=
  ⟨[[1, 0], [0, 1], [1, 1]], [(10, 0), (20, 1), (30, 2)], [10, 20, 30], []⟩

/-- Test table D: the single article 10 ↦ [1]. -/
def tableD : ContentBasedRecommender := ⟨[[1]], [(10, 0)], [10], []⟩

instance : Std.Associative vecAdd := ⟨by
  intro a b c
  induction a generalizing b c with
  | nil => simp [vecAdd]
  | cons x xs ih =>
    cases b with
    | nil => simp [vecAdd]
    | cons y ys =>
      cases c with
      | nil => simp [vecAdd]
      | cons z zs =>
        have h := ih ys zs
        simp only [vecAdd] at h ⊢
        simp [add_assoc, h]⟩

instance : Std.Commutative vecAdd := ⟨by
  intro a b
  induction a generalizing b with
  | nil => cases b <;> simp [vecAdd]
  | cons x xs ih =>
    cases b with
    | nil => simp [vecAdd]
    | cons y ys =>
      have h := ih ys
      simp only [vecAdd] at h ⊢
      simp [add_comm, h]⟩

theorem lookupLast_append_some {α β : Type} [DecidableEq α]
    (l₁ l₂ : List (α × β)) (k : α) (v : β) (h : lookupLast l₂ k = some v) :
    lookupLast (l₁ ++ l₂) k = some v := by
  induction l₁ with
  | nil => simpa using h
  | cons p t ih =>
    obtain ⟨a, b⟩ := p
    simp [lookupLast, ih]

theorem lookupLast_append_none {α β : Type} [DecidableEq α]
    (l₁ l₂ : List (α × β)) (k : α) (h : lookupLast l₂ k = none) :
    lookupLast (l₁ ++ l₂) k = lookupLast l₁ k := by
  induction l₁ with
  | nil => simpa using h
  | cons p t ih =>
    obtain ⟨a, b⟩ := p
    simp only [List.cons_append, lookupLast]
    rw [show t.append l₂ = t ++ l₂ from rfl, ih]

theorem lookupLast_map_keyed {β : Type} (f : ℤ → β) :
    ∀ (us : List ℤ) (u : ℤ),
      lookupLast (us.map (fun x => (x, f x))) u =
        if u ∈ us then some (f u) else none := by
  intro us
  induction us with
  | nil => intro u; simp [lookupLast]
  | cons a t ih =>
    intro u
    by_cases hm : u ∈ t
    · simp [lookupLast, ih, hm]
    · by_cases ha : a = u
      · subst ha
        simp [lookupLast, ih, hm]
      · simp [lookupLast, ih, hm, ha, Ne.symm ha]

theorem length_insertDesc (p : ℤ × ℚ) (l : List (ℤ × ℚ)) :
    (insertDesc p l).length = l.length + 1 := by
  induction l with
  | nil => rfl
  | cons q t ih =>
    simp only [insertDesc]
    split <;> simp [ih]

theorem length_sortDesc (l : List (ℤ × ℚ)) : (sortDesc l).length = l.length := by
  induction l with
  | nil => rfl
  | cons p t ih => simp [sortDesc, length_insertDesc, ih]

theorem mem_insertDesc {q p : ℤ × ℚ} {l : List (ℤ × ℚ)} :
    q ∈ insertDesc p l ↔ q = p ∨ q ∈ l := by
  induction l with
  | nil => simp [insertDesc]
  | cons x t ih =>
    simp only [insertDesc]
    split
    · simp
    · simp [ih]
      tauto

theorem mem_sortDesc {q : ℤ × ℚ} {l : List (ℤ × ℚ)} : q ∈ sortDesc l ↔ q ∈ l := by
  induction l with
  | nil => simp [sortDesc]
  | cons p t ih => simp [sortDesc, mem_insertDesc, ih]

theorem mem_insertAsc {α : Type} [LinearOrder α] {y x : α} {l : List α} :
    y ∈ insertAsc x l ↔ y = x ∨ y ∈ l := by
  induction l with
  | nil => simp [insertAsc]
  | cons z t ih =>
    simp only [insertAsc]
    split
    · simp
    · simp [ih]
      tauto

theorem mem_sortAsc {α : Type} [LinearOrder α] {y : α} {l : List α} :
    y ∈ sortAsc l ↔ y ∈ l := by
  induction l with
  | nil => simp [sortAsc]
  | cons x t ih => simp [sortAsc, mem_insertAsc, ih]

theorem pySlice_subset {α : Type} (n : ℤ) (xs : List α) : pySlice n xs ⊆ xs := by
  unfold pySlice
  split <;> exact List.take_subset _ _

theorem length_pySlice_of_nonneg {α : Type} {n : ℤ} (xs : List α) (h : 0 ≤ n) :
    (pySlice n xs).length = min n.toNat xs.length := by
  simp [pySlice, h]

theorem mem_sortedUsers {rd : List RatingRow} {u : ℤ} :
    u ∈ ContentBasedRecommender.sortedUsers rd ↔
      u ∈ rd.map (fun row => row.user_id) := by
  simp [ContentBasedRecommender.sortedUsers, mem_sortAsc]

namespace ContentBasedRecommender

theorem fit_profiles (r : ContentBasedRecommender) (rd : List RatingRow) :
    (r.fit rd).user_profiles =
      r.user_profiles ++
        (sortedUsers rd).map (fun u => (u, r.buildProfile (userRows rd u))) := rfl

theorem fit_embeddings (r : ContentBasedRecommender) (rd : List RatingRow) :
    (r.fit rd).embeddings = r.embeddings := rfl

theorem fit_article_indices (r : ContentBasedRecommender) (rd : List RatingRow) :
    (r.fit rd).article_indices = r.article_indices := rfl

theorem buildProfile_fit (r : ContentBasedRecommender) (rd rows : List RatingRow) :
    (r.fit rd).buildProfile rows = r.buildProfile rows := rfl

theorem fit_lookup_of_mem (r : ContentBasedRecommender) (rd : List RatingRow)
    (u : ℤ) (h : u ∈ rd.map (fun row => row.user_id)) :
    lookupLast (r.fit rd).user_profiles u = some (r.buildProfile (userRows rd u)) := by
  have hkey := lookupLast_map_keyed
    (fun x => r.buildProfile (userRows rd x)) (sortedUsers rd) u
  rw [if_pos (mem_sortedUsers.mpr h)] at hkey
  rw [fit_profiles]
  exact lookupLast_append_some _ _ _ _ hkey

theorem fit_lookup_of_not_mem (r : ContentBasedRecommender) (rd : List RatingRow)
    (u : ℤ) (h : u ∉ rd.map (fun row => row.user_id)) :
    lookupLast (r.fit rd).user_profiles u = lookupLast r.user_profiles u := by
  have hkey := lookupLast_map_keyed
    (fun x => r.buildProfile (userRows rd x)) (sortedUsers rd) u
  rw [if_neg (fun hm => h (mem_sortedUsers.mp hm))] at hkey
  rw [fit_profiles]
  exact lookupLast_append_none _ _ _ hkey

theorem foldl_profileStep (r : ContentBasedRecommender) :
    ∀ (rows : List RatingRow) (v0 : Vec) (w0 : ℚ) (aw : List (ℤ × ℚ)),
      rows.foldl (profileStep r) (v0, w0, aw) =
        (List.foldl vecAdd v0 ((r.indexedRows rows).map
           (fun row => smul row.rating (r.vecOf row.article_id))),
         w0 + ((r.indexedRows rows).map (fun row => row.rating)).sum,
         aw ++ (r.indexedRows rows).map (fun row => (row.article_id, row.rating))) := by
  intro rows
  induction rows with
  | nil => intro v0 w0 aw; simp [indexedRows]
  | cons row t ih =>
    intro v0 w0 aw
    cases h : lookupLast r.article_indices row.article_id with
    | none =>
      simp only [List.foldl_cons, profileStep, h]
      rw [ih]
      simp [indexedRows, List.filter_cons, h]
    | some i =>
      simp only [List.foldl_cons, profileStep, h]
      rw [ih]
      simp only [indexedRows, List.filter_cons, h, Option.isSome_some, if_true]
      simp [vecOf, h, add_assoc]

theorem buildProfile_spec (r : ContentBasedRecommender) (rows : List RatingRow) :
    r.buildProfile rows =
      { vector :=
          if 0 < r.totalWeight rows then
            smul (1 / r.totalWeight rows) (r.weightedVecSum rows)
          else r.weightedVecSum rows,
        article_weights :=
          (r.indexedRows rows).map (fun row => (row.article_id, row.rating)) } := by
  simp only [buildProfile, foldl_profileStep, zero_add, List.nil_append]
  rw [List.foldl_eq_foldr]
  rfl

end ContentBasedRecommender

namespace ContentBasedRecommender

theorem filterMap_low_mem (r : ContentBasedRecommender) (score : Vec → Vec → ℚ)
    (u : Vec) (ex : List ℤ) :
    ∀ ids : List ℤ,
      ids.filterMap (fun aid =>
        if aid ∈ ex then none
        else
          let v := r.vecOf aid
          if 0 < normSq u ∧ 0 < normSq v then some (aid, score u v) else none) =
      (ids.filter (fun aid =>
          decide (aid ∉ ex ∧ 0 < normSq u ∧ 0 < normSq (r.vecOf aid)))).map
        (fun aid => (aid, score u (r.vecOf aid))) := by
  intro ids
  induction ids with
  | nil => rfl
  | cons a t ih =>
    rw [List.filterMap_cons, List.filter_cons, ih]
    by_cases h1 : a ∈ ex
    · simp [h1]
    · by_cases h2 : 0 < normSq u ∧ 0 < normSq (r.vecOf a)
      · simp [h1, h2.1, h2.2]
      · simp [h1, h2]

theorem lowMemScores_eq_map (r : ContentBasedRecommender) (score : Vec → Vec → ℚ)
    (u : Vec) (ex : List ℤ) :
    r.lowMemScores score u ex =
      (r.definedCandidates u ex).map (fun aid => (aid, score u (r.vecOf aid))) := by
  unfold lowMemScores definedCandidates
  exact filterMap_low_mem r score u ex r.article_ids

theorem mem_batchScores (r : ContentBasedRecommender) (score : Vec → Vec → ℚ)
    (u : Vec) (ex : List ℤ) (b : ℕ) (p : ℤ × ℚ)
    (h : p ∈ r.batchScores score u ex b) : p.1 ∉ ex := by
  unfold batchScores at h
  simp only [List.mem_flatMap, List.mem_filterMap, List.mem_range] at h
  obtain ⟨k, _, j, _, hf⟩ := h
  by_cases hex : r.article_ids.getD (k * b + j) 0 ∈ ex
  · rw [if_pos hex] at hf
    cases hf
  · rw [if_neg hex] at hf
    cases hf
    exact hex

theorem mem_lowMemScores (r : ContentBasedRecommender) (score : Vec → Vec → ℚ)
    (u : Vec) (ex : List ℤ) (p : ℤ × ℚ)
    (h : p ∈ r.lowMemScores score u ex) :
    p.1 ∉ ex ∧ 0 < normSq u ∧ 0 < normSq (r.vecOf p.1) := by
  rw [lowMemScores_eq_map] at h
  simp only [List.mem_map] at h
  obtain ⟨aid, haid, hp⟩ := h
  simp only [definedCandidates, List.mem_filter, decide_eq_true_eq] at haid
  cases hp
  exact haid.2

end ContentBasedRecommender

theorem lookupLast_enumIdxFrom_of_not_mem (a : ℤ) :
    ∀ (ids : List ℤ) (m : ℕ), a ∉ ids → lookupLast (enumIdxFrom m ids) a = none := by
  intro ids
  induction ids with
  | nil => intro m _; rfl
  | cons hd t ih =>
    intro m h
    have h1 : hd ≠ a := fun he => h (by simp [he])
    have h2 : a ∉ t := fun ht => h (List.mem_cons_of_mem _ ht)
    simp [enumIdxFrom, lookupLast, ih (m + 1) h2, h1]

theorem lookupLast_enumIdxFrom_last_occ :
    ∀ (ids : List ℤ) (m k : ℕ) (a : ℤ),
      k < ids.length → ids.getD k 0 = a →
      (∀ j ∈ List.range ids.length, k < j → ids.getD j 0 ≠ a) →
      lookupLast (enumIdxFrom m ids) a = some (m + k) := by
  intro ids
  induction ids with
  | nil => intro m k a hk _ _; simp at hk
  | cons hd t ih =>
    intro m k a hk hget hlast
    cases k with
    | zero =>
      have hhd : hd = a := hget
      have hnot : a ∉ t := by
        intro hmem
        obtain ⟨j0, hj0, hje⟩ := List.mem_iff_getElem.mp hmem
        have hgd : t.getD j0 0 = a := by
          rw [List.getD_eq_getElem?_getD, List.getElem?_eq_getElem hj0]
          simpa using hje
        exact hlast (j0 + 1) (by simp [List.mem_range]; omega) (by omega)
          (by simpa using hgd)
      simp [enumIdxFrom, lookupLast, lookupLast_enumIdxFrom_of_not_mem a t (m + 1) hnot, hhd]
    | succ k0 =>
      have hk0 : k0 < t.length := by simpa using hk
      have hget0 : t.getD k0 0 = a := hget
      have hlast0 : ∀ j ∈ List.range t.length, k0 < j → t.getD j 0 ≠ a := by
        intro j hj hlt
        have := hlast (j + 1) (by simp at hj ⊢; omega) (by omega)
        simpa using this
      have := ih (m + 1) k0 a hk0 hget0 hlast0
      simp only [enumIdxFrom, lookupLast, this]
      congr 1
      omega

theorem filterMap_session (clicks : List Click) :
    clicks.filterMap (fun c => c.session_size.map (fun m => (c.user_id, c.article_id, m))) =
      (keptClicks clicks).map (fun c => (c.user_id, c.article_id, c.session_size.getD 0)) := by
  unfold keptClicks
  induction clicks with
  | nil => rfl
  | cons c t ih =>
    rw [List.filterMap_cons, List.filter_cons]
    cases h : c.session_size with
    | none => simp [h, ih]
    | some m => simp [h, ih]

theorem zipWith_map_both {α β γ δ : Type} (f : β → γ → δ) (g : α → β) (h : α → γ) :
    ∀ l : List α, List.zipWith f (l.map g) (l.map h) = l.map (fun x => f (g x) (h x)) := by
  intro l
  induction l with
  | nil => rfl
  | cons a t ih => simp [ih]

open ContentBasedRecommender

/-- C7: rating derivation drops rows with a missing or non-numeric
engagement measure (no Rating is emitted for them), computes the log of the
measure per remaining row, takes the global 25th and 75th percentile of
those logs over the whole remaining set, and assigns rating 1 when
log ≤ p25, rating 3 when log > p75, and rating 2 otherwise (low boundary
inclusive, high boundary exclusive).  log1p abstracts the transcendental
x ↦ ln(1+x) applied to the measure. -/
theorem c7_prepare_ratings_thresholds (log1p : ℚ → ℚ) (clicks : List Click) :
    prepare_ratings log1p clicks =
      (keptClicks clicks).map (fun c =>
        RatingRow.mk c.user_id c.article_id
          (if log1p (c.session_size.getD 0) ≤
              quantile ((keptClicks clicks).map
                (fun c2 => log1p (c2.session_size.getD 0))) (1 / 4) then 1
           else if log1p (c.session_size.getD 0) ≤
              quantile ((keptClicks clicks).map
                (fun c2 => log1p (c2.session_size.getD 0))) (3 / 4) then 2
           else 3)) := by
  simp only [prepare_ratings, filterMap_session, List.map_map, zipWith_map_both]
  simp only [Function.comp_def]

/-- C9: no article id in the exclusion set (the articles of the requested
user's rows in the supplied ratings table) ever appears in the output of
either recommendation mode, for any state, score function, batch size and
request size. -/
theorem c9_excluded_never_in_output (r : ContentBasedRecommender)
    (score : Vec → Vec → ℚ) (b : ℕ) (u : ℤ) (rd : List RatingRow) (n : ℤ)
    (p : ℤ × ℚ) :
    (p ∈ r.recommend_batched score b u rd n → p.1 ∉ userArticles rd u) ∧
    (p ∈ r.recommend_low_memory score u rd n → p.1 ∉ userArticles rd u) := by
  constructor
  · intro hp
    cases hl : lookupLast r.user_profiles u with
    | none => simp [recommend_batched, hl] at hp
    | some prof =>
      simp only [recommend_batched, hl] at hp
      exact mem_batchScores r score prof.vector (userArticles rd u) b p
        (mem_sortDesc.mp (pySlice_subset _ _ hp))
  · intro hp
    cases hl : lookupLast r.user_profiles u with
    | none => simp [recommend_low_memory, hl] at hp
    | some prof =>
      simp only [recommend_low_memory, hl] at hp
      exact (mem_lowMemScores r score prof.vector (userArticles rd u) p
        (mem_sortDesc.mp (pySlice_subset _ _ hp))).1

/-- C10: the exclusion set is not caller-supplied: it is exactly the set of
article ids appearing in a row of the supplied ratings table for the
requested user, and both recommendation modes depend on the ratings table
only through that set, so no other exclusion set is expressible through the
public interface. -/
theorem c10_exclusion_is_internal (r : ContentBasedRecommender)
    (score : Vec → Vec → ℚ) (b : ℕ) (u : ℤ) (rd rd2 : List RatingRow)
    (n : ℤ) (a : ℤ) :
    (a ∈ userArticles rd u ↔ ∃ row ∈ rd, row.user_id = u ∧ row.article_id = a) ∧
    (userArticles rd u = userArticles rd2 u →
      r.recommend_batched score b u rd n = r.recommend_batched score b u rd2 n ∧
      r.recommend_low_memory score u rd n = r.recommend_low_memory score u rd2 n) := by
  constructor
  · simp only [userArticles, List.mem_dedup, List.mem_map, List.mem_filter,
      decide_eq_true_eq]
    constructor
    · rintro ⟨row, ⟨hrow, huser⟩, haid⟩
      exact ⟨row, hrow, huser, haid⟩
    · rintro ⟨row, hrow, huser, haid⟩
      exact ⟨row, ⟨hrow, huser⟩, haid⟩
  · intro h
    constructor
    · unfold recommend_batched
      simp only [h]
    · unfold recommend_low_memory
      simp only [h]

/-- C5 (amended): fit does not clear previous profiles.  After
fit(R1); fit(R2), a user occurring in R2 has the profile that fit(R2)
alone would give, while a user not occurring in R2 keeps whatever mapping
fit(R1) left, instead of having no profile. -/
theorem c5_fit_overwrites_only_present_users (r : ContentBasedRecommender)
    (R1 R2 : List RatingRow) (u : ℤ) :
    (u ∈ R2.map (fun row => row.user_id) →
      lookupLast ((r.fit R1).fit R2).user_profiles u =
        lookupLast (r.fit R2).user_profiles u) ∧
    (u ∉ R2.map (fun row => row.user_id) →
      lookupLast ((r.fit R1).fit R2).user_profiles u =
        lookupLast (r.fit R1).user_profiles u) := by
  constructor
  · intro h
    rw [fit_lookup_of_mem _ R2 u h, fit_lookup_of_mem r R2 u h, buildProfile_fit]
  · intro h
    exact fit_lookup_of_not_mem _ R2 u h

/-- C3 (amended): in recommend_low_memory a candidate is emitted only when
the user's profile vector and the candidate's embedding both have positive
norm, so a zero-norm candidate — or every candidate when the user profile
has zero norm — is excluded entirely and never scored. -/
theorem c3_low_memory_excludes_zero_norm (r : ContentBasedRecommender)
    (score : Vec → Vec → ℚ) (u : ℤ) (rd : List RatingRow) (n : ℤ)
    (p : ℤ × ℚ) (hp : p ∈ r.recommend_low_memory score u rd n) :
    ∃ prof, lookupLast r.user_profiles u = some prof ∧
      0 < normSq prof.vector ∧ 0 < normSq (r.vecOf p.1) := by
  cases hl : lookupLast r.user_profiles u with
  | none => simp [recommend_low_memory, hl] at hp
  | some prof =>
    simp only [recommend_low_memory, hl] at hp
    exact ⟨prof, rfl,
      (mem_lowMemScores r score prof.vector (userArticles rd u) p
        (mem_sortDesc.mp (pySlice_subset _ _ hp))).2⟩

/-- C4 (amended): for a user with a profile and a request size n ≥ 0, the
length of recommend_low_memory's result is min(n, number of candidates
remaining after exclusion whose similarity is defined, i.e. both norms
positive). -/
theorem c4_low_memory_length (r : ContentBasedRecommender)
    (score : Vec → Vec → ℚ) (u : ℤ) (rd : List RatingRow) (n : ℤ)
    (prof : Profile) (hl : lookupLast r.user_profiles u = some prof)
    (hn : 0 ≤ n) :
    (r.recommend_low_memory score u rd n).length =
      min n.toNat (r.definedCandidates prof.vector (userArticles rd u)).length := by
  simp only [recommend_low_memory, hl]
  rw [length_pySlice_of_nonneg _ hn, length_sortDesc, lowMemScores_eq_map,
    List.length_map]

/-- C2 (amended): building the embedding table performs no integrity
validation and never fails: the article ids and the matrix are returned
unchanged (duplicate ids retained), and the id-to-index mapping sends an
id to the position of its last occurrence in the id list. -/
theorem c2_prepare_embeddings_no_validation (index : List ℤ) (values : List Vec)
    (dfa : List ℤ) (a : ℤ) (k : ℕ) (hk : k < index.length)
    (hget : index.getD k 0 = a)
    (hlast : ∀ j ∈ List.range index.length, k < j → index.getD j 0 ≠ a) :
    prepare_embeddings (.frame index values) dfa = (index, values, enumIdx index) ∧
    lookupLast (enumIdx index) a = some k := by
  refine ⟨rfl, ?_⟩
  have h := lookupLast_enumIdxFrom_last_occ index 0 k a hk hget hlast
  simpa [enumIdx] using h

/-- C8: for a user occurring in the ratings table with ratings drawn from
the Rating domain 1,2,3, fit builds the user's profile vector as
Σ(rating·vector)/Σrating over exactly the user's rows whose article_id is
present in the index (unindexed rows contribute to neither sum), and the
profile vector is the zero vector when the total weight is zero. -/
theorem c8_profile_vector_weighted_mean (r : ContentBasedRecommender)
    (rd : List RatingRow) (u : ℤ)
    (hr : ∀ row ∈ rd, row.rating = 1 ∨ row.rating = 2 ∨ row.rating = 3)
    (hu : u ∈ rd.map (fun row => row.user_id)) :
    Option.map Profile.vector (lookupLast (r.fit rd).user_profiles u) =
      some (if r.totalWeight (userRows rd u) = 0 then zeros r.dim
            else smul (1 / r.totalWeight (userRows rd u))
                   (r.weightedVecSum (userRows rd u))) := by
  rw [fit_lookup_of_mem r rd u hu, buildProfile_spec]
  simp only [Option.map_some']
  have hsub : ∀ row ∈ r.indexedRows (userRows rd u), 0 < row.rating := by
    intro row hrow
    have h1 : row ∈ userRows rd u := List.mem_of_mem_filter hrow
    have h2 : row ∈ rd := List.mem_of_mem_filter h1
    rcases hr row h2 with h | h | h <;> rw [h] <;> norm_num
  by_cases hz : r.totalWeight (userRows rd u) = 0
  · have hemp : r.indexedRows (userRows rd u) = [] := by
      cases hc : r.indexedRows (userRows rd u) with
      | nil => rfl
      | cons row0 rest =>
        exfalso
        have hpos : 0 < r.totalWeight (userRows rd u) := by
          rw [totalWeight, hc]
          apply List.sum_pos
          · intro x hx
            simp only [List.mem_map] at hx
            obtain ⟨row, hrow, hxe⟩ := hx
            rw [← hc] at hrow
            rw [← hxe]
            exact hsub row hrow
          · simp
        rw [hz] at hpos
        exact lt_irrefl 0 hpos
    simp [totalWeight, weightedVecSum, hemp]
  · have hnn : 0 ≤ r.totalWeight (userRows rd u) := by
      rw [totalWeight]
      apply List.sum_nonneg
      intro x hx
      simp only [List.mem_map] at hx
      obtain ⟨row, hrow, hxe⟩ := hx
      rw [← hxe]
      exact le_of_lt (hsub row hrow)
    have hpos := lt_of_le_of_ne hnn (Ne.symm hz)
    rw [if_pos hpos, if_neg hz]

/-- C6 (amended): after fit on a fresh model, a profile entry exists for a
user id iff that user appears in at least one row of the ratings table,
regardless of whether any of the rated articles is indexed; a user all of
whose rated articles are unindexed receives a zero-vector profile with an
empty weights mapping. -/
theorem c6_profile_exists_iff_user_in_ratings (r : ContentBasedRecommender)
    (rd : List RatingRow) (u : ℤ) (h0 : r.user_profiles = []) :
    ((lookupLast (r.fit rd).user_profiles u).isSome ↔
      u ∈ rd.map (fun row => row.user_id)) ∧
    ((∀ row ∈ userRows rd u, lookupLast r.article_indices row.article_id = none) →
      u ∈ rd.map (fun row => row.user_id) →
      lookupLast (r.fit rd).user_profiles u = some ⟨zeros r.dim, []⟩) := by
  constructor
  · constructor
    · intro hs
      by_contra hmem
      rw [fit_lookup_of_not_mem r rd u hmem, h0] at hs
      simp [lookupLast] at hs
    · intro hmem
      rw [fit_lookup_of_mem r rd u hmem]
      rfl
  · intro hun hmem
    rw [fit_lookup_of_mem r rd u hmem, buildProfile_spec]
    have hemp : r.indexedRows (userRows rd u) = [] := by
      rw [indexedRows, List.filter_eq_nil_iff]
      intro row hrow
      simp [hun row hrow]
    simp [totalWeight, weightedVecSum, hemp]

theorem fitA_eval : tableA.fit ratingsA =
    ⟨[[1, 0], [0, 1]], [(10, 0), (20, 1)], [10, 20],
      [(1, ⟨[1, 0], [(10, 1)]⟩)]⟩ := by
  norm_num [tableA, ratingsA, fit, sortedUsers, sortAsc, insertAsc, userRows,
    buildProfile, profileStep, lookupLast, zeros, dim, rowAt, vecAdd, smul,
    List.dedup_cons_of_not_mem, List.replicate_succ]

theorem fitB_eval : tableB.fit ratingsB =
    ⟨[[0, 0], [1, 0]], [(30, 0), (10, 1)], [30, 10],
      [(1, ⟨[1, 0], [(10, 3)]⟩)]⟩ := by
  norm_num [tableB, ratingsB, fit, sortedUsers, sortAsc, insertAsc, userRows,
    buildProfile, profileStep, lookupLast, zeros, dim, rowAt, vecAdd, smul,
    List.dedup_cons_of_not_mem, List.replicate_succ]

theorem fitC_eval : tableC.fit ratingsA =
    ⟨[[1, 0], [0, 1], [1, 1]], [(10, 0), (20, 1), (30, 2)], [10, 20, 30],
      [(1, ⟨[1, 0], [(10, 1)]⟩)]⟩ := by
  norm_num [tableC, ratingsA, fit, sortedUsers, sortAsc, insertAsc, userRows,
    buildProfile, profileStep, lookupLast, zeros, dim, rowAt, vecAdd, smul,
    List.dedup_cons_of_not_mem, List.replicate_succ]

theorem fitD1_eval : tableD.fit [⟨1, 10, 1⟩] =
    ⟨[[1]], [(10, 0)], [10], [(1, ⟨[1], [(10, 1)]⟩)]⟩ := by
  norm_num [tableD, fit, sortedUsers, sortAsc, insertAsc, userRows,
    buildProfile, profileStep, lookupLast, zeros, dim, rowAt, vecAdd, smul,
    List.dedup_cons_of_not_mem, List.replicate_succ]

theorem fitD2_eval : tableD.fit [⟨2, 10, 1⟩] =
    ⟨[[1]], [(10, 0)], [10], [(2, ⟨[1], [(10, 1)]⟩)]⟩ := by
  norm_num [tableD, fit, sortedUsers, sortAsc, insertAsc, userRows,
    buildProfile, profileStep, lookupLast, zeros, dim, rowAt, vecAdd, smul,
    List.dedup_cons_of_not_mem, List.replicate_succ]

theorem fitD12_eval : (tableD.fit [⟨1, 10, 1⟩]).fit [⟨2, 10, 1⟩] =
    ⟨[[1]], [(10, 0)], [10],
      [(1, ⟨[1], [(10, 1)]⟩), (2, ⟨[1], [(10, 1)]⟩)]⟩ := by
  rw [fitD1_eval]
  norm_num [fit, sortedUsers, sortAsc, insertAsc, userRows,
    buildProfile, profileStep, lookupLast, zeros, dim, rowAt, vecAdd, smul,
    List.dedup_cons_of_not_mem, List.replicate_succ]

theorem fitD99_eval : tableD.fit [⟨1, 99, 1⟩] =
    ⟨[[1]], [(10, 0)], [10], [(1, ⟨[0], []⟩)]⟩ := by
  norm_num [tableD, fit, sortedUsers, sortAsc, insertAsc, userRows,
    buildProfile, profileStep, lookupLast, zeros, dim, rowAt, vecAdd, smul,
    List.dedup_cons_of_not_mem, List.replicate_succ]

/-- C1: failing input for the claim that the batched mode (recommend, batch
size 1000) and the single-candidate mode agree and that the batched output
is invariant to batch size.  With articles 10 ↦ [1,0], 20 ↦ [0,1] and user 1
having rated article 10, the batched mode attributes the similarity of the
only non-excluded candidate (article 20) to article_ids[i+j] = 10, which is
excluded, so it returns []; the single-candidate mode returns [(20, 0)]; and
re-running the batch loop with batch size 1 returns [(20, 0)] while batch
size 2 returns [], so the batched output also depends on the batch size. -/
theorem c1_batched_and_low_memory_disagree :
    (tableA.fit ratingsA).recommend dot 1 ratingsA 5 = [] ∧
    (tableA.fit ratingsA).recommend_low_memory dot 1 ratingsA 5 = [(20, 0)] ∧
    (tableA.fit ratingsA).recommend_batched dot 1 1 ratingsA 5 = [(20, 0)] ∧
    (tableA.fit ratingsA).recommend_batched dot 2 1 ratingsA 5 = [] := by
  rw [fitA_eval]
  refine ⟨?_, ?_, ?_, ?_⟩ <;>
    norm_num [ratingsA, recommend, recommend_batched, batchScores,
      recommend_low_memory, lowMemScores, userArticles, sklearn_cosine,
      normSq, dot, vecOf, rowAt, dim, lookupLast, pySlice, sortDesc,
      insertDesc, smul, vecAdd, zeros, List.replicate_succ, List.range_succ,
      List.dedup_cons_of_not_mem, List.filterMap_cons]

/-- C2 (counterexample): a frame source whose index carries the duplicated
article id 5 is normalized without any failure: prepare_embeddings returns a
table whose id list still contains the duplicate (and whose index dict maps
5 to the last row), instead of failing with a DataIntegrityError. -/
theorem c2_duplicate_id_produces_table :
    prepare_embeddings (RawEmbeddings.frame [5, 5] [[1], [2]]) [] =
      ([5, 5], [[1], [2]], [(5, 0), (5, 1)]) ∧
    ¬ ([5, 5] : List ℤ).Nodup := by
  refine ⟨rfl, by decide⟩

/-- C3 (counterexample): with article 30 carrying the zero embedding [0,0]
and user 1 having rated only article 10, the batched mode emits the pair
(30, 0) — the zero-norm candidate is scored 0, not excluded — while the
low-memory mode excludes it and returns []. -/
theorem c3_zero_norm_scored_by_batched :
    (tableB.fit ratingsB).recommend dot 1 ratingsB 5 = [(30, 0)] ∧
    normSq ((tableB.fit ratingsB).vecOf 30) = 0 ∧
    (tableB.fit ratingsB).recommend_low_memory dot 1 ratingsB 5 = [] := by
  rw [fitB_eval]
  refine ⟨?_, ?_, ?_⟩ <;>
    norm_num [ratingsB, recommend, recommend_batched, batchScores,
      recommend_low_memory, lowMemScores, userArticles, sklearn_cosine,
      normSq, dot, vecOf, rowAt, dim, lookupLast, pySlice, sortDesc,
      insertDesc, smul, vecAdd, zeros, List.replicate_succ, List.range_succ,
      List.dedup_cons_of_not_mem, List.filterMap_cons]

/-- C4 (counterexample): with two scored candidates, n = -1 yields a
one-element result in the low-memory mode (Python slice semantics), not the
empty sequence; and in the batched mode, a user with one defined candidate
(article 20) receives an empty result for n = 5, so the batched length is
not min(n, number of defined candidates) either. -/
theorem c4_negative_n_and_batched_undercount :
    (tableC.fit ratingsA).recommend_low_memory dot 1 ratingsA (-1) = [(30, 1)] ∧
    (tableA.fit ratingsA).recommend dot 1 ratingsA 5 = [] ∧
    (tableA.fit ratingsA).definedCandidates [1, 0] (userArticles ratingsA 1) = [20] ∧
    lookupLast (tableA.fit ratingsA).user_profiles 1 = some ⟨[1, 0], [(10, 1)]⟩ := by
  rw [fitA_eval, fitC_eval]
  refine ⟨?_, ?_, ?_, ?_⟩ <;>
    norm_num [ratingsA, recommend, recommend_batched, batchScores,
      recommend_low_memory, lowMemScores, userArticles, definedCandidates,
      sklearn_cosine, normSq, dot, vecOf, rowAt, dim, lookupLast, pySlice,
      sortDesc, insertDesc, smul, vecAdd, zeros, List.replicate_succ,
      List.range_succ, List.dedup_cons_of_not_mem, List.filterMap_cons]

/-- C5 (counterexample): after fit([user 1 rates 10]) followed by
fit([user 2 rates 10]), user 1 still has the profile from the first fit,
while fit([user 2 rates 10]) alone gives user 1 no profile — so a second
fit does not replace the whole mapping. -/
theorem c5_stale_profile_survives_refit :
    lookupLast ((tableD.fit [⟨1, 10, 1⟩]).fit [⟨2, 10, 1⟩]).user_profiles 1 =
      some ⟨[1], [(10, 1)]⟩ ∧
    lookupLast (tableD.fit [⟨2, 10, 1⟩]).user_profiles 1 = none := by
  rw [fitD12_eval, fitD2_eval]
  refine ⟨?_, ?_⟩ <;> norm_num [lookupLast]

/-- C6 (counterexample): user 1 rated only article 99, which is absent from
the index, yet after fit the user HAS a profile entry (with the zero vector
and empty weights) — contradicting the claim that an entry exists only for
users with at least one indexed rating. -/
theorem c6_unindexed_user_still_gets_profile :
    lookupLast (tableD.fit [⟨1, 99, 1⟩]).user_profiles 1 = some ⟨[0], []⟩ ∧
    lookupLast tableD.article_indices 99 = none := by
  rw [fitD99_eval]
  refine ⟨by norm_num [lookupLast], by norm_num [tableD, lookupLast]⟩

theorem c2_no_validation_witness :
    prepare_embeddings (RawEmbeddings.frame [5, 5] [[1], [2]]) [] =
      ([5, 5], [[1], [2]], enumIdx [5, 5]) ∧
    lookupLast (enumIdx [5, 5]) 5 = some 1 :=
  c2_prepare_embeddings_no_validation [5, 5] [[1], [2]] [] 5 1
    (by decide) (by decide) (by decide)

theorem c3_low_memory_witness :
    ∃ prof, lookupLast (tableC.fit ratingsA).user_profiles 1 = some prof ∧
      0 < normSq prof.vector ∧ 0 < normSq ((tableC.fit ratingsA).vecOf 30) :=
  c3_low_memory_excludes_zero_norm (tableC.fit ratingsA) dot 1 ratingsA 5 (30, 1)
    (by
      rw [fitC_eval]
      norm_num [ratingsA, recommend_low_memory, lowMemScores, userArticles,
        normSq, dot, vecOf, rowAt, lookupLast, pySlice, sortDesc, insertDesc,
        List.dedup_cons_of_not_mem, List.filterMap_cons]
      decide)

theorem c4_length_witness :
    ((tableC.fit ratingsA).recommend_low_memory dot 1 ratingsA 2).length =
      min (2 : ℤ).toNat
        ((tableC.fit ratingsA).definedCandidates
          (Profile.mk [1, 0] [(10, 1)]).vector (userArticles ratingsA 1)).length :=
  c4_low_memory_length (tableC.fit ratingsA) dot 1 ratingsA 2 ⟨[1, 0], [(10, 1)]⟩
    (by rw [fitC_eval]; norm_num [lookupLast]) (by norm_num)

theorem c5_fit_witness :
    lookupLast ((tableD.fit [⟨1, 10, 1⟩]).fit [⟨2, 10, 1⟩]).user_profiles 2 =
      lookupLast (tableD.fit [⟨2, 10, 1⟩]).user_profiles 2 :=
  (c5_fit_overwrites_only_present_users tableD [⟨1, 10, 1⟩] [⟨2, 10, 1⟩] 2).1
    (by simp)

theorem c6_profile_witness :
    lookupLast (tableD.fit [⟨1, 99, 1⟩]).user_profiles 1 =
      some ⟨zeros tableD.dim, []⟩ :=
  (c6_profile_exists_iff_user_in_ratings tableD [⟨1, 99, 1⟩] 1 rfl).2
    (by decide) (by simp)

theorem c8_profile_witness :
    Option.map Profile.vector (lookupLast (tableD.fit [⟨1, 10, 1⟩]).user_profiles 1) =
      some (if tableD.totalWeight (userRows [⟨1, 10, 1⟩] 1) = 0 then zeros tableD.dim
            else smul (1 / tableD.totalWeight (userRows [⟨1, 10, 1⟩] 1))
                   (tableD.weightedVecSum (userRows [⟨1, 10, 1⟩] 1))) :=
  c8_profile_vector_weighted_mean tableD [⟨1, 10, 1⟩] 1
    (by
      intro row h
      simp only [List.mem_singleton] at h
      subst h
      norm_num)
    (by simp)

theorem c9_exclusion_witness :
    (20 : ℤ) ∉ userArticles ratingsA 1 :=
  (c9_excluded_never_in_output (tableA.fit ratingsA) dot 1000 1 ratingsA 5 (20, 0)).2
    (by
      rw [fitA_eval]
      norm_num [ratingsA, recommend_low_memory, lowMemScores, userArticles,
        normSq, dot, vecOf, rowAt, lookupLast, pySlice, sortDesc, insertDesc,
        List.dedup_cons_of_not_mem, List.filterMap_cons]
      decide)

theorem c10_internal_witness :
    tableA.recommend_batched dot 1000 1 ratingsA 5 =
        tableA.recommend_batched dot 1000 1 ratingsA 5 ∧
      tableA.recommend_low_memory dot 1 ratingsA 5 =
        tableA.recommend_low_memory dot 1 ratingsA 5 :=
  (c10_exclusion_is_internal tableA dot 1000 1 ratingsA ratingsA 5 10).2 rfl
